import Mathlib

/-!
Shallow embedding of the secure CoAP client bridge
(src/src/core/coap/secure_coap_client.cpp, namespace Thread::Coap,
class SecureClient) and proofs of its specified properties.

The component is modelled as a pure state machine.  Calls into the external
collaborators (the DTLS engine, the UDP socket, the message pool, the base
CoAP client, the tasklet scheduler) are recorded in an output log of
`ExtCall` values; outcomes decided by those collaborators (allocation
success, engine results) enter as explicit oracle arguments.
-/

namespace SecureCoap

/-- An IPv6 peer endpoint: the pair of fields of Ip6::MessageInfo that
SecureClient reads (GetPeerAddr and mPeerPort).  The 128-bit address is
abstracted to a natural number; only equality of addresses is used. -/
structure Endpoint where
  addr : Nat
  port : Nat
  deriving DecidableEq

/-- The ThreadError codes that appear in secure_coap_client.cpp, plus one
representative further engine-reported code (kThreadError_Busy) so that
oracle results are not artificially restricted to the three local codes. -/
inductive ThreadError where
  | kThreadError_None
  | kThreadError_NoBufs
  | kThreadError_InvalidState
  | kThreadError_Busy
  deriving DecidableEq

open ThreadError

/-- A message object from the message pool, as SecureClient uses it for
mTransmitMessage: its byte content plus the link-security flag set by
SetLinkSecurityEnabled. -/
structure TxMessage where
  bytes : List Nat
  linkSecurityEnabled : Bool
  deriving DecidableEq

/-- Modelled from the spec: the fixed capacity kMaxMessageLength of the
reassembly buffer mBuffer.  The header secure_coap_client.hpp that defines
the constant is not under src/; the spec fixes only that the capacity is a
constant, so a representative value is used.  No claim depends on the
value. -/
def kMaxMessageLength : Nat := 1024

/-- The mutable member state of SecureClient together with the observable
state of the DTLS engine it delegates to (dtlsStarted / dtlsConnected mirror
Dtls::IsStarted and Dtls::IsConnected).  mConnectedCallback abstracts the
function pointer to an optional identifier (none = NULL); mContext is the
context pointer value (0 = NULL). -/
structure SecureClientState where
  mPeerAddress : Endpoint
  mConnectedCallback : Option Nat
  mContext : Nat
  mTransmitMessage : Option TxMessage
  mBuffer : List Nat
  dtlsStarted : Bool
  dtlsConnected : Bool
  deriving DecidableEq

/-- The constructor state: callback and context NULL, no transmit message,
mBuffer zeroed by memset, DTLS engine neither started nor connected. -/
def initState : SecureClientState :=
  { mPeerAddress := { addr := 0, port := 0 }
    mConnectedCallback := none
    mContext := 0
    mTransmitMessage := none
    mBuffer := List.replicate kMaxMessageLength 0
    dtlsStarted := false
    dtlsConnected := false }

/-- One observable call into an external collaborator, in program order. -/
inductive ExtCall where
  | dtlsStart
  | dtlsStop
  | dtlsReceive (bytes : List Nat)
  | dtlsSend (bytes : List Nat)
  | sendTo (payload : List Nat) (dest : Endpoint)
  | callbackFired (cb : Nat) (ctx : Nat)
  | msgFree
  | clientStop
  | clientSendMessage (msg : List Nat) (dest : Endpoint)
  | processReceivedMessage (bytes : List Nat) (peer : Endpoint)
  | taskPost
  deriving DecidableEq

/-- SecureClient::IsConnected — delegated to Dtls::IsConnected. -/
def IsConnected (s : SecureClientState) : Bool := s.dtlsConnected

/-- SecureClient::IsConnectionStarted — delegated to Dtls::IsStarted. -/
def IsConnectionStarted (s : SecureClientState) : Bool := s.dtlsStarted

/-- SecureClient::Connect (lines 69-76): stores the peer endpoint, callback
and context unconditionally, then calls Dtls::Start in client role and
returns its result.  Modelled from the spec: on success the engine is
started and not yet connected (the handshake is asynchronous); on failure
the engine state is unchanged.  startResult is the oracle for the engine
result. -/
def Connect (s : SecureClientState) (aMessageInfo : Endpoint) (aCallback : Option Nat)
    (aContext : Nat) (startResult : ThreadError) :
    ThreadError × SecureClientState × List ExtCall :=
  let s1 := { s with
    mPeerAddress := aMessageInfo
    mConnectedCallback := aCallback
    mContext := aContext }
  if startResult = kThreadError_None then
    (startResult, { s1 with dtlsStarted := true, dtlsConnected := false }, [ExtCall.dtlsStart])
  else
    (startResult, s1, [ExtCall.dtlsStart])

/-- SecureClient::Disconnect (lines 88-91): delegates to Dtls::Stop.
Modelled from the spec: stopping the engine always succeeds and leaves it
neither started nor connected. -/
def Disconnect (s : SecureClientState) : ThreadError × SecureClientState × List ExtCall :=
  (kThreadError_None, { s with dtlsStarted := false, dtlsConnected := false }, [ExtCall.dtlsStop])

/-- SecureClient::Stop (lines 53-67): disconnect if a session is started,
free mTransmitMessage if present and clear the reference, then call the
base Client::Stop whose result (oracle baseStopResult) is returned. -/
def Stop (s : SecureClientState) (baseStopResult : ThreadError) :
    ThreadError × SecureClientState × List ExtCall :=
  let (s1, log1) :=
    if IsConnectionStarted s then
      let (_, s2, l) := Disconnect s
      (s2, l)
    else (s, [])
  match s1.mTransmitMessage with
  | some _ =>
      (baseStopResult, { s1 with mTransmitMessage := none },
        log1 ++ [ExtCall.msgFree] ++ [ExtCall.clientStop])
  | none =>
      (baseStopResult, s1, log1 ++ [ExtCall.clientStop])

/-- SecureClient::SendMessage (lines 98-108): requires IsConnected, then
delegates to Client::SendMessage with mPeerAddress; otherwise returns
kThreadError_InvalidState with no side effect.  baseResult is the oracle for
the base-class result. -/
def SendMessage (s : SecureClientState) (aMessage : List Nat) (baseResult : ThreadError) :
    ThreadError × SecureClientState × List ExtCall :=
  if IsConnected s then
    (baseResult, s, [ExtCall.clientSendMessage aMessage s.mPeerAddress])
  else
    (kThreadError_InvalidState, s, [])

/-- SecureClient::Send (lines 115-134), the transport hook invoked by the
base client: if the message length exceeds kMaxMessageLength, fail with
kThreadError_NoBufs; else copy the payload into mBuffer (Message::Read),
call Dtls::Send on the buffer (oracle dtlsSendResult) and, only on success,
free the message.  The aMessageInfo parameter is cast to void in the
source. -/
def Send (s : SecureClientState) (aMessage : List Nat) (aMessageInfo : Endpoint)
    (dtlsSendResult : ThreadError) : ThreadError × SecureClientState × List ExtCall :=
  let _ := aMessageInfo
  let length := aMessage.length
  if length ≤ kMaxMessageLength then
    let buffer := aMessage ++ s.mBuffer.drop length
    let s1 := { s with mBuffer := buffer }
    if dtlsSendResult = kThreadError_None then
      (kThreadError_None, s1, [ExtCall.dtlsSend (buffer.take length), ExtCall.msgFree])
    else
      (dtlsSendResult, s1, [ExtCall.dtlsSend (buffer.take length)])
  else
    (kThreadError_NoBufs, s, [])

/-- SecureClient::Receive (lines 141-159): drop the datagram unless both the
peer address and the peer port of the source match mPeerAddress; otherwise
feed the payload to Dtls::Receive and then, if IsConnected and a connected
callback is registered, fire it once and clear callback and context.
Modelled from the spec: the engine connectedness after Dtls::Receive is the
oracle engineConnects, masked by IsStarted (a stopped engine cannot report
connected). -/
def Receive (s : SecureClientState) (payload : List Nat) (aMessageInfo : Endpoint)
    (engineConnects : Bool) : SecureClientState × List ExtCall :=
  if s.mPeerAddress.addr = aMessageInfo.addr ∧ s.mPeerAddress.port = aMessageInfo.port then
    let s1 := { s with dtlsConnected := s.dtlsStarted && engineConnects }
    let rcvLog := [ExtCall.dtlsReceive payload]
    match s1.mConnectedCallback with
    | some cb =>
        if IsConnected s1 then
          ({ s1 with mConnectedCallback := none, mContext := 0 },
            rcvLog ++ [ExtCall.callbackFired cb s1.mContext])
        else (s1, rcvLog)
    | none => (s1, rcvLog)
  else (s, [])

/-- SecureClient::HandleDtlsReceive (lines 166-185): allocate a message from
the pool (oracle allocOk), append the decrypted bytes (oracle appendOk),
deliver it through ProcessReceivedMessage addressed from mPeerAddress, and
free the local message whenever it was allocated. -/
def HandleDtlsReceive (s : SecureClientState) (aBuf : List Nat) (allocOk appendOk : Bool) :
    SecureClientState × List ExtCall :=
  if allocOk then
    if appendOk then
      (s, [ExtCall.processReceivedMessage aBuf s.mPeerAddress, ExtCall.msgFree])
    else
      (s, [ExtCall.msgFree])
  else
    (s, [])

/-- SecureClient::HandleDtlsSend (lines 192-218): lazily allocate
mTransmitMessage from the socket pool (oracle allocOk) with link security
disabled, append the chunk (oracle appendOk), and post the transmit tasklet.
On failure the exit path returns kThreadError_NoBufs and calls Free on
mTransmitMessage when it is non-NULL — the source does not clear the
reference there, which this embedding mirrors. -/
def HandleDtlsSend (s : SecureClientState) (aBuf : List Nat) (allocOk appendOk : Bool) :
    ThreadError × SecureClientState × List ExtCall :=
  match s.mTransmitMessage with
  | none =>
      if allocOk then
        let msg0 : TxMessage := { bytes := [], linkSecurityEnabled := false }
        if appendOk then
          (kThreadError_None,
            { s with mTransmitMessage := some { msg0 with bytes := msg0.bytes ++ aBuf } },
            [ExtCall.taskPost])
        else
          -- error = kThreadError_NoBufs; exit frees the freshly allocated
          -- message but leaves mTransmitMessage pointing at it
          (kThreadError_NoBufs, { s with mTransmitMessage := some msg0 }, [ExtCall.msgFree])
      else
        -- the failed NewMessage result (NULL) was assigned to mTransmitMessage
        (kThreadError_NoBufs, { s with mTransmitMessage := none }, [])
  | some msg =>
      if appendOk then
        (kThreadError_None,
          { s with mTransmitMessage := some { msg with bytes := msg.bytes ++ aBuf } },
          [ExtCall.taskPost])
      else
        -- error = kThreadError_NoBufs; exit frees the message but the
        -- member still references it
        (kThreadError_NoBufs, s, [ExtCall.msgFree])

/-- SecureClient::HandleUdpTransmit (lines 225-244): if no transmit message
exists, set error = kThreadError_NoBufs; otherwise hand the message to
Ip6::Udp::Socket::SendTo addressed to mPeerAddress (its result is
discarded, so error keeps kThreadError_None).  The exit path frees the
message only when error is set and the message is non-NULL, then
unconditionally clears mTransmitMessage. -/
def HandleUdpTransmit (s : SecureClientState) : SecureClientState × List ExtCall :=
  let error := kThreadError_None
  let (error, sendLog) :=
    match s.mTransmitMessage with
    | none => (kThreadError_NoBufs, ([] : List ExtCall))
    | some msg => (error, [ExtCall.sendTo msg.bytes s.mPeerAddress])
  let freeLog :=
    if error ≠ kThreadError_None ∧ s.mTransmitMessage ≠ none then [ExtCall.msgFree] else []
  ({ s with mTransmitMessage := none }, sendLog ++ freeLog)

/-! Trace machinery: an event alphabet covering every public operation and
callback of the component, a step function reusing the operation
definitions, and accumulated runs and logs. -/

/-- One invocation of an operation on the component, with its oracle
arguments. -/
inductive Event where
  | evConnect (peer : Endpoint) (cb : Option Nat) (ctx : Nat) (startResult : ThreadError)
  | evDisconnect
  | evStop (baseStopResult : ThreadError)
  | evSendMessage (msg : List Nat) (baseResult : ThreadError)
  | evSend (msg : List Nat) (info : Endpoint) (dtlsSendResult : ThreadError)
  | evReceive (payload : List Nat) (src : Endpoint) (engineConnects : Bool)
  | evDtlsReceiveCb (buf : List Nat) (allocOk appendOk : Bool)
  | evDtlsSendCb (buf : List Nat) (allocOk appendOk : Bool)
  | evFlush
  deriving DecidableEq

/-- Apply one event to the state, discarding the returned error and keeping
the external-call log. -/
def step (s : SecureClientState) : Event → SecureClientState × List ExtCall
  | .evConnect p cb ctx r =>
      let (_, s1, l) := Connect s p cb ctx r
      (s1, l)
  | .evDisconnect =>
      let (_, s1, l) := Disconnect s
      (s1, l)
  | .evStop r =>
      let (_, s1, l) := Stop s r
      (s1, l)
  | .evSendMessage m r =>
      let (_, s1, l) := SendMessage s m r
      (s1, l)
  | .evSend m info r =>
      let (_, s1, l) := Send s m info r
      (s1, l)
  | .evReceive p src ec => Receive s p src ec
  | .evDtlsReceiveCb b a ap => HandleDtlsReceive s b a ap
  | .evDtlsSendCb b a ap =>
      let (_, s1, l) := HandleDtlsSend s b a ap
      (s1, l)
  | .evFlush => HandleUdpTransmit s

/-- Final state after a list of events. -/
def run (s : SecureClientState) : List Event → SecureClientState
  | [] => s
  | e :: t => run (step s e).1 t

/-- Concatenated external-call log of a list of events. -/
def traceLog (s : SecureClientState) : List Event → List ExtCall
  | [] => []
  | e :: t => (step s e).2 ++ traceLog (step s e).1 t

/-- Whether an external call is a connected-callback invocation. -/
def isFire : ExtCall → Bool
  | .callbackFired _ _ => true
  | _ => false

/-- Number of connected-callback invocations in a log. -/
def countFires (l : List ExtCall) : Nat := (l.filter isFire).length

/-- Whether an external call is a datagram handed to the socket. -/
def isSendTo : ExtCall → Bool
  | .sendTo _ _ => true
  | _ => false

/-- Whether an event is a Connect invocation. -/
def isConnectEv : Event → Bool
  | .evConnect _ _ _ _ => true
  | _ => false

/-- A trace with no Connect invocation. -/
def noConnect (t : List Event) : Prop := ∀ e ∈ t, isConnectEv e = false

/-- Run a sequence of HandleDtlsSend callbacks; returns the final state, the
concatenated log, and the list of per-call results.  Each list element is
(chunk, allocOk, appendOk). -/
def runDtlsSends (s : SecureClientState) :
    List (List Nat × Bool × Bool) → SecureClientState × List ExtCall × List ThreadError
  | [] => (s, [], [])
  | c :: rest =>
      let r1 := HandleDtlsSend s c.1 c.2.1 c.2.2
      let r2 := runDtlsSends r1.2.1 rest
      (r2.1, r1.2.2 ++ r2.2.1, r1.1 :: r2.2.2)

/-! Claim theorems. -/

/-- C4: an incoming datagram whose source endpoint differs from the bound
peer endpoint in the address or the port has no observable effect: the
DTLS receive is not called, no callback fires, and the state is
unchanged. -/
theorem C4_mismatched_datagram_no_effect (s : SecureClientState) (payload : List Nat)
    (src : Endpoint) (ec : Bool)
    (h : s.mPeerAddress.addr ≠ src.addr ∨ s.mPeerAddress.port ≠ src.port) :
    Receive s payload src ec = (s, []) := by
  have hc : ¬(s.mPeerAddress.addr = src.addr ∧ s.mPeerAddress.port = src.port) := by tauto
  simp only [Receive, if_neg hc]

/-- Witness for C4 at a concrete mismatching endpoint. -/
theorem C4_mismatched_datagram_no_effect_witness :
    initState.mPeerAddress.addr ≠ 1 ∧
    Receive initState [7] { addr := 1, port := 0 } true = (initState, []) :=
  ⟨by decide,
   C4_mismatched_datagram_no_effect initState [7] { addr := 1, port := 0 } true
     (Or.inl (by decide))⟩

/-- C6: SendMessage while not connected returns kThreadError_InvalidState,
makes no call to the base messaging layer or the network, and leaves the
state unchanged. -/
theorem C6_sendmessage_requires_connected (s : SecureClientState) (msg : List Nat)
    (r : ThreadError) (h : IsConnected s = false) :
    SendMessage s msg r = (kThreadError_InvalidState, s, []) := by
  simp [SendMessage, h]

/-- Witness for C6 from the initial (unconnected) state. -/
theorem C6_sendmessage_requires_connected_witness :
    IsConnected initState = false ∧
    SendMessage initState [1, 2] kThreadError_None = (kThreadError_InvalidState, initState, []) :=
  ⟨by decide,
   C6_sendmessage_requires_connected initState [1, 2] kThreadError_None (by decide)⟩

/-- C7: after every HandleUdpTransmit the pending-message reference is
cleared, and when no pending message existed the flush does nothing at
all. -/
theorem C7_flush_always_clears_pending (s : SecureClientState) :
    (HandleUdpTransmit s).1.mTransmitMessage = none ∧
    (s.mTransmitMessage = none → HandleUdpTransmit s = (s, [])) := by
  constructor
  · cases hm : s.mTransmitMessage <;> simp [HandleUdpTransmit, hm]
  · intro h
    cases s
    simp only at h
    simp [HandleUdpTransmit, h]

/-- Witness for C7 from the initial state, which has no pending message. -/
theorem C7_flush_always_clears_pending_witness :
    initState.mTransmitMessage = none ∧ HandleUdpTransmit initState = (initState, []) :=
  ⟨by decide, (C7_flush_always_clears_pending initState).2 (by decide)⟩

/-- C8: Stop first calls the DTLS stop when a session is started, then
frees the pending message when one exists, then calls the base Client
stop, and afterwards no pending outbound message is referenced. -/
theorem C8_stop_sequence (s : SecureClientState) (r : ThreadError) :
    (Stop s r).2.1.mTransmitMessage = none ∧
    (Stop s r).2.2 =
      (if IsConnectionStarted s then [ExtCall.dtlsStop] else []) ++
      (if s.mTransmitMessage.isSome then [ExtCall.msgFree] else []) ++
      [ExtCall.clientStop] := by
  cases s with
  | mk pa cb cx tm buf st cn =>
      cases st <;> cases tm <;>
        simp [Stop, Disconnect, IsConnectionStarted]

/-- C9: Connect stores the peer endpoint, callback and context before the
engine start runs, so they hold the new arguments afterwards even when the
engine start fails, and the engine result is returned unchanged. -/
theorem C9_connect_overwrites_unconditionally (s : SecureClientState) (p : Endpoint)
    (cb : Option Nat) (ctx : Nat) (r : ThreadError) :
    (Connect s p cb ctx r).2.1.mPeerAddress = p ∧
    (Connect s p cb ctx r).2.1.mConnectedCallback = cb ∧
    (Connect s p cb ctx r).2.1.mContext = ctx ∧
    (Connect s p cb ctx r).1 = r := by
  by_cases h : r = kThreadError_None <;> simp [Connect, h]

/-- C10: HandleUdpTransmit never calls Free, and when a pending message
exists it only hands it to SendTo addressed to the bound peer and clears
the reference. -/
theorem C10_flush_never_frees (s : SecureClientState) :
    ExtCall.msgFree ∉ (HandleUdpTransmit s).2 ∧
    (∀ m, s.mTransmitMessage = some m →
      (HandleUdpTransmit s).2 = [ExtCall.sendTo m.bytes s.mPeerAddress] ∧
      (HandleUdpTransmit s).1.mTransmitMessage = none) := by
  cases hm : s.mTransmitMessage <;> simp [HandleUdpTransmit, hm]

/-- Witness for C10 on a state holding a concrete pending message. -/
theorem C10_flush_never_frees_witness :
    (HandleUdpTransmit { initState with
        mTransmitMessage := some { bytes := [1, 2], linkSecurityEnabled := false } }).2 =
      [ExtCall.sendTo [1, 2] { addr := 0, port := 0 }] ∧
    (HandleUdpTransmit { initState with
        mTransmitMessage := some { bytes := [1, 2], linkSecurityEnabled := false } }).1.mTransmitMessage
      = none :=
  (C10_flush_never_frees _).2 { bytes := [1, 2], linkSecurityEnabled := false } rfl

/-- C5: the Send transport hook fails with kThreadError_NoBufs and frees
nothing when the message exceeds kMaxMessageLength, and it frees the
message exactly when the length is within the capacity and the DTLS send
succeeded. -/
theorem C5_send_ownership (s : SecureClientState) (msg : List Nat) (info : Endpoint)
    (r : ThreadError) :
    (kMaxMessageLength < msg.length →
      (Send s msg info r).1 = kThreadError_NoBufs ∧
      ExtCall.msgFree ∉ (Send s msg info r).2.2) ∧
    (ExtCall.msgFree ∈ (Send s msg info r).2.2 ↔
      msg.length ≤ kMaxMessageLength ∧ r = kThreadError_None) := by
  by_cases hl : msg.length ≤ kMaxMessageLength
  · constructor
    · intro hgt
      omega
    · by_cases hr : r = kThreadError_None <;> simp [Send, hl, hr]
  · constructor
    · intro _
      simp [Send, hl]
    · simp [Send, hl]

/-- Witness for C5 at an oversized concrete message. -/
theorem C5_send_ownership_witness :
    (Send initState (List.replicate 1025 0) { addr := 0, port := 0 } kThreadError_None).1
      = kThreadError_NoBufs ∧
    ExtCall.msgFree ∉
      (Send initState (List.replicate 1025 0) { addr := 0, port := 0 } kThreadError_None).2.2 :=
  (C5_send_ownership initState (List.replicate 1025 0) { addr := 0, port := 0 }
      kThreadError_None).1 (by rw [List.length_replicate]; norm_num [kMaxMessageLength])

/-- A run of all-successful HandleDtlsSend callbacks starting from a state
that already holds a transmit message appends the concatenation of the
chunks, keeps the peer address, and hands nothing to the socket. -/
lemma runDtlsSends_from_some (calls : List (List Nat × Bool × Bool)) :
    ∀ (s : SecureClientState) (msg : TxMessage), s.mTransmitMessage = some msg →
    (∀ e ∈ (runDtlsSends s calls).2.2, e = kThreadError_None) →
    (runDtlsSends s calls).1.mTransmitMessage
      = some { msg with bytes := msg.bytes ++ (calls.map (fun c => c.1)).flatten } ∧
    (runDtlsSends s calls).1.mPeerAddress = s.mPeerAddress ∧
    (runDtlsSends s calls).2.1.filter isSendTo = [] := by
  induction calls with
  | nil =>
      intro s msg hs _
      simp [runDtlsSends, hs]
  | cons c rest ih =>
      intro s msg hs hok
      obtain ⟨buf, aOk, apOk⟩ := c
      cases apOk with
      | false =>
          exfalso
          have h0 : (runDtlsSends s ((buf, aOk, false) :: rest)).2.2 =
              kThreadError_NoBufs :: (runDtlsSends s rest).2.2 := by
            simp [runDtlsSends, HandleDtlsSend, hs]
          have hmem := hok kThreadError_NoBufs (by rw [h0]; exact List.mem_cons_self _ _)
          exact absurd hmem (by decide)
      | true =>
          have hstep : HandleDtlsSend s buf aOk true =
              (kThreadError_None,
               { s with mTransmitMessage := some { msg with bytes := msg.bytes ++ buf } },
               [ExtCall.taskPost]) := by
            simp [HandleDtlsSend, hs]
          simp only [runDtlsSends, hstep] at hok ⊢
          have hok1 : ∀ e ∈ (runDtlsSends
              { s with mTransmitMessage := some { msg with bytes := msg.bytes ++ buf } }
              rest).2.2, e = kThreadError_None := by
            intro e he
            exact hok e (List.mem_cons_of_mem _ he)
          obtain ⟨g1, g2, g3⟩ := ih
            { s with mTransmitMessage := some { msg with bytes := msg.bytes ++ buf } }
            { msg with bytes := msg.bytes ++ buf } rfl hok1
          refine ⟨?_, ?_, ?_⟩
          · rw [g1]
            simp
          · rw [g2]
          · simp [isSendTo, g3]

/-- C1 counterexample: with zero HandleDtlsSend calls (all of which
trivially succeed) a single flush performs no SendTo at all, so the claim,
which demands exactly one SendTo with the (empty) concatenation as
payload, fails on the empty call sequence. -/
theorem C1_empty_sequence_counterexample :
    ¬ (((runDtlsSends initState []).2.1 ++
        (HandleUdpTransmit (runDtlsSends initState []).1).2).filter isSendTo
      = [ExtCall.sendTo (([] : List (List Nat × Bool × Bool)).map (fun c => c.1)).flatten
          initState.mPeerAddress]) := by
  simp [runDtlsSends, HandleUdpTransmit, initState]

/-- C1 (amended to nonempty sequences): every nonempty sequence of
HandleDtlsSend callbacks that all succeed, starting with no pending
transmit message and followed by one HandleUdpTransmit, produces exactly
one SendTo, whose payload is the concatenation of the chunks in call order
and whose destination is the bound peer. -/
theorem C1_flush_sends_concatenation_once (s0 : SecureClientState)
    (calls : List (List Nat × Bool × Bool)) (h0 : s0.mTransmitMessage = none)
    (hne : calls ≠ [])
    (hok : ∀ e ∈ (runDtlsSends s0 calls).2.2, e = kThreadError_None) :
    ((runDtlsSends s0 calls).2.1 ++
        (HandleUdpTransmit (runDtlsSends s0 calls).1).2).filter isSendTo
      = [ExtCall.sendTo (calls.map (fun c => c.1)).flatten s0.mPeerAddress] := by
  cases calls with
  | nil => exact absurd rfl hne
  | cons c rest =>
      obtain ⟨buf, aOk, apOk⟩ := c
      cases aOk with
      | false =>
          exfalso
          have h1 : (runDtlsSends s0 ((buf, false, apOk) :: rest)).2.2 =
              kThreadError_NoBufs :: (runDtlsSends { s0 with mTransmitMessage := none } rest).2.2 := by
            simp [runDtlsSends, HandleDtlsSend, h0]
          have hmem := hok kThreadError_NoBufs (by rw [h1]; exact List.mem_cons_self _ _)
          exact absurd hmem (by decide)
      | true =>
          cases apOk with
          | false =>
              exfalso
              have h1 : (runDtlsSends s0 ((buf, true, false) :: rest)).2.2 =
                  kThreadError_NoBufs :: (runDtlsSends
                    { s0 with mTransmitMessage := some (TxMessage.mk [] false) }
                    rest).2.2 := by
                simp [runDtlsSends, HandleDtlsSend, h0]
              have hmem := hok kThreadError_NoBufs (by rw [h1]; exact List.mem_cons_self _ _)
              exact absurd hmem (by decide)
          | true =>
              have hstep : HandleDtlsSend s0 buf true true =
                  (kThreadError_None,
                   { s0 with mTransmitMessage := some (TxMessage.mk buf false) },
                   [ExtCall.taskPost]) := by
                simp [HandleDtlsSend, h0]
              simp only [runDtlsSends, hstep] at hok ⊢
              have hok1 : ∀ e ∈ (runDtlsSends
                  { s0 with mTransmitMessage := some (TxMessage.mk buf false) } rest).2.2,
                  e = kThreadError_None := by
                intro e he
                exact hok e (List.mem_cons_of_mem _ he)
              obtain ⟨g1, g2, g3⟩ := runDtlsSends_from_some rest
                { s0 with mTransmitMessage := some (TxMessage.mk buf false) }
                (TxMessage.mk buf false) rfl hok1
              have hud : (HandleUdpTransmit (runDtlsSends
                  { s0 with mTransmitMessage := some (TxMessage.mk buf false) } rest).1).2 =
                  [ExtCall.sendTo (buf ++ (rest.map (fun c => c.1)).flatten)
                    s0.mPeerAddress] := by
                simp [HandleUdpTransmit, g1]
                rw [g2]
              simp [List.filter_append, g3, hud, isSendTo]

/-- Witness for C1 at two concrete successful chunks. -/
theorem C1_flush_sends_concatenation_once_witness :
    initState.mTransmitMessage = none ∧
    (((runDtlsSends initState [([1], true, true), ([2, 3], true, true)]).2.1 ++
        (HandleUdpTransmit
          (runDtlsSends initState [([1], true, true), ([2, 3], true, true)]).1).2).filter isSendTo
      = [ExtCall.sendTo [1, 2, 3] { addr := 0, port := 0 }]) :=
  ⟨rfl,
   C1_flush_sends_concatenation_once initState [([1], true, true), ([2, 3], true, true)]
     rfl (by decide) (by decide)⟩

/-- The fire count of a concatenated log splits additively. -/
lemma countFires_append (a b : List ExtCall) :
    countFires (a ++ b) = countFires a + countFires b := by
  simp [countFires]

/-- Running an appended trace runs the two parts in order. -/
lemma run_append (u v : List Event) : ∀ s, run s (u ++ v) = run (run s u) v := by
  induction u with
  | nil => intro s; rfl
  | cons e u ih => intro s; simp only [List.cons_append, run]; exact ih _

/-- Combined analysis of one step, covering every event: a step fires the
connected callback at most once; a step that fires leaves the engine
connected and the callback cleared; and in the absence of a Connect event a
cleared callback stays cleared with no fire, and a stopped engine stays
stopped with no fire. -/
lemma step_analysis (s : SecureClientState) (e : Event) :
    countFires (step s e).2 ≤ 1 ∧
    (0 < countFires (step s e).2 →
      IsConnected (step s e).1 = true ∧ (step s e).1.mConnectedCallback = none) ∧
    (isConnectEv e = false →
      (s.mConnectedCallback = none →
        (step s e).1.mConnectedCallback = none ∧ countFires (step s e).2 = 0) ∧
      (s.dtlsStarted = false →
        (step s e).1.dtlsStarted = false ∧ countFires (step s e).2 = 0)) := by
  cases e with
  | evConnect p cb ctx r =>
      by_cases h : r = kThreadError_None <;>
        simp [step, Connect, h, countFires, isFire, isConnectEv]
  | evDisconnect =>
      simp [step, Disconnect, countFires, isFire, isConnectEv]
  | evStop r =>
      cases hst : s.dtlsStarted <;> cases htm : s.mTransmitMessage <;>
        simp [step, Stop, Disconnect, IsConnectionStarted, hst, htm, countFires, isFire,
          isConnectEv]
  | evSendMessage m r =>
      cases hc : s.dtlsConnected <;>
        simp [step, SendMessage, IsConnected, hc, countFires, isFire, isConnectEv]
  | evSend m info r =>
      by_cases hl : m.length ≤ kMaxMessageLength
      · by_cases hr : r = kThreadError_None <;>
          simp [step, Send, hl, hr, countFires, isFire, isConnectEv]
      · simp [step, Send, hl, countFires, isFire, isConnectEv]
  | evReceive payload src ec =>
      by_cases hm : s.mPeerAddress.addr = src.addr ∧ s.mPeerAddress.port = src.port
      · cases hcb : s.mConnectedCallback with
        | none =>
            cases hst : s.dtlsStarted <;>
              simp [step, Receive, hm, hcb, hst, IsConnected, countFires, isFire, isConnectEv]
        | some cbv =>
            cases hst : s.dtlsStarted <;> cases ec <;>
              simp [step, Receive, hm, hcb, hst, IsConnected, countFires, isFire, isConnectEv]
      · simp [step, Receive, hm, countFires, isFire, isConnectEv]
  | evDtlsReceiveCb b a ap =>
      cases a <;> cases ap <;>
        simp [step, HandleDtlsReceive, countFires, isFire, isConnectEv]
  | evDtlsSendCb b a ap =>
      cases htm : s.mTransmitMessage <;> cases a <;> cases ap <;>
        simp [step, HandleDtlsSend, htm, countFires, isFire, isConnectEv]
  | evFlush =>
      cases htm : s.mTransmitMessage <;>
        simp [step, HandleUdpTransmit, htm, countFires, isFire, isConnectEv]

/-- With no Connect event, a trace started with a cleared callback never
fires it. -/
lemma traceLog_cb_none_zero :
    ∀ (t : List Event) (s : SecureClientState), noConnect t →
      s.mConnectedCallback = none → countFires (traceLog s t) = 0 := by
  intro t
  induction t with
  | nil => intro s _ _; rfl
  | cons e t ih =>
      intro s hnc hcb
      have he : isConnectEv e = false := hnc e (List.mem_cons_self _ _)
      have ht : noConnect t := fun x hx => hnc x (List.mem_cons_of_mem _ hx)
      obtain ⟨hcb1, hz⟩ := ((step_analysis s e).2.2 he).1 hcb
      simp [traceLog, countFires_append, hz, ih _ ht hcb1]

/-- With no Connect event, a trace started with a stopped engine never
fires the callback. -/
lemma traceLog_not_started_zero :
    ∀ (t : List Event) (s : SecureClientState), noConnect t →
      s.dtlsStarted = false → countFires (traceLog s t) = 0 := by
  intro t
  induction t with
  | nil => intro s _ _; rfl
  | cons e t ih =>
      intro s hnc hst
      have he : isConnectEv e = false := hnc e (List.mem_cons_self _ _)
      have ht : noConnect t := fun x hx => hnc x (List.mem_cons_of_mem _ hx)
      obtain ⟨hst1, hz⟩ := ((step_analysis s e).2.2 he).2 hst
      simp [traceLog, countFires_append, hz, ih _ ht hst1]

/-- With no Connect event, any trace fires the connected callback at most
once from any starting state. -/
lemma traceLog_le_one :
    ∀ (t : List Event) (s : SecureClientState), noConnect t →
      countFires (traceLog s t) ≤ 1 := by
  intro t
  induction t with
  | nil => intro s _; simp [traceLog, countFires]
  | cons e t ih =>
      intro s hnc
      have ht : noConnect t := fun x hx => hnc x (List.mem_cons_of_mem _ hx)
      rcases Nat.eq_zero_or_pos (countFires (step s e).2) with h0 | hpos
      · simp only [traceLog, countFires_append, h0, Nat.zero_add]
        exact ih _ ht
      · have hcb := ((step_analysis s e).2.1 hpos).2
        have hz := traceLog_cb_none_zero t _ ht hcb
        have hle := (step_analysis s e).1
        simp only [traceLog, countFires_append, hz]
        omega

/-- C3: after a successful Connect, along any following trace with no
further Connect, the connected callback fires at most once; every step
that fires it ends in a state where IsConnected is true; and no firing
occurs at or after a Disconnect. -/
theorem C3_connected_callback_one_shot (s0 : SecureClientState) (p : Endpoint)
    (cb : Option Nat) (ctx : Nat) (t : List Event) (hnc : noConnect t) :
    countFires (traceLog (step s0 (Event.evConnect p cb ctx kThreadError_None)).1 t) ≤ 1 ∧
    (∀ u e v, t = u ++ e :: v →
      0 < countFires
        (step (run (step s0 (Event.evConnect p cb ctx kThreadError_None)).1 u) e).2 →
      IsConnected
        (step (run (step s0 (Event.evConnect p cb ctx kThreadError_None)).1 u) e).1 = true) ∧
    (∀ u v, t = u ++ Event.evDisconnect :: v →
      countFires (traceLog
        (run (step s0 (Event.evConnect p cb ctx kThreadError_None)).1
          (u ++ [Event.evDisconnect])) v) = 0) := by
  refine ⟨traceLog_le_one t _ hnc, ?_, ?_⟩
  · intro u e v _ hpos
    exact ((step_analysis _ e).2.1 hpos).1
  · intro u v ht
    have hv : noConnect v := by
      intro x hx
      exact hnc x (by rw [ht]; exact List.mem_append_right _ (List.mem_cons_of_mem _ hx))
    have hrun : run (step s0 (Event.evConnect p cb ctx kThreadError_None)).1
        (u ++ [Event.evDisconnect])
        = (step (run (step s0 (Event.evConnect p cb ctx kThreadError_None)).1 u)
            Event.evDisconnect).1 := by
      rw [run_append]
      rfl
    rw [hrun]
    apply traceLog_not_started_zero v _ hv
    simp [step, Disconnect]

/-- Witness for C3 on a concrete trace: a successful Connect, a matching
datagram on which the engine reports connected, then a Disconnect. -/
theorem C3_connected_callback_one_shot_witness :
    noConnect [Event.evReceive [9] { addr := 5, port := 6 } true, Event.evDisconnect] ∧
    (countFires (traceLog
        (step initState
          (Event.evConnect { addr := 5, port := 6 } (some 1) 2 kThreadError_None)).1
        [Event.evReceive [9] { addr := 5, port := 6 } true, Event.evDisconnect]) ≤ 1 ∧
    (∀ u e v,
      [Event.evReceive [9] { addr := 5, port := 6 } true, Event.evDisconnect] = u ++ e :: v →
      0 < countFires (step (run (step initState
        (Event.evConnect { addr := 5, port := 6 } (some 1) 2 kThreadError_None)).1 u) e).2 →
      IsConnected (step (run (step initState
        (Event.evConnect { addr := 5, port := 6 } (some 1) 2 kThreadError_None)).1 u) e).1
        = true) ∧
    (∀ u v,
      [Event.evReceive [9] { addr := 5, port := 6 } true, Event.evDisconnect]
        = u ++ Event.evDisconnect :: v →
      countFires (traceLog (run (step initState
        (Event.evConnect { addr := 5, port := 6 } (some 1) 2 kThreadError_None)).1
        (u ++ [Event.evDisconnect])) v) = 0)) :=
  ⟨by simp [noConnect, isConnectEv],
   C3_connected_callback_one_shot initState { addr := 5, port := 6 } (some 1) 2
     [Event.evReceive [9] { addr := 5, port := 6 } true, Event.evDisconnect]
     (by simp [noConnect, isConnectEv])⟩

/-- C2 failing input: a pending message holds bytes [1, 2] and a
HandleDtlsSend of chunk [3] hits an append failure.  The call returns
kThreadError_NoBufs and frees the message, but — contrary to the claim —
mTransmitMessage still references the freed message afterwards: the source
has no clearing assignment on this exit path. -/
theorem C2_append_failure_leaves_dangling_reference :
    (HandleDtlsSend { initState with
        mTransmitMessage := some { bytes := [1, 2], linkSecurityEnabled := false } }
      [3] true false).1 = kThreadError_NoBufs ∧
    ExtCall.msgFree ∈ (HandleDtlsSend { initState with
        mTransmitMessage := some { bytes := [1, 2], linkSecurityEnabled := false } }
      [3] true false).2.2 ∧
    (HandleDtlsSend { initState with
        mTransmitMessage := some { bytes := [1, 2], linkSecurityEnabled := false } }
      [3] true false).2.1.mTransmitMessage
      = some { bytes := [1, 2], linkSecurityEnabled := false } := by
  refine ⟨rfl, ?_, rfl⟩
  simp [HandleDtlsSend]

end SecureCoap
